import Mathlib

set_option linter.unusedVariables false

/-!
# Verification of the quant-pipeline Alpaca client and connector

Shallow embedding, in Lean 4, of the market-data code in
`src/alpaca/client.py` and `src/ingestion/connectors/alpaca_connector.py`,
together with proofs and refutations of the testable properties stated in
the specification.

Modelling conventions:

* The tabular data library (the dataframe type used for result shaping) is
  an out-of-scope collaborator per the specification; it is modelled by the
  `Frame` structure below, carrying the list of column names, the per-column
  numeric data, and the row count.  Attribute lookup on a frame is dynamic
  in the source language, so it is modelled by `Frame.getAttr`, which
  errors on any attribute the dataframe type does not expose.
* Calendar dates are modelled by their proleptic Gregorian ordinal
  (the value of `date.toordinal()` in the source language), an integer;
  adding a timedelta of `n` days is addition of `n`.
* Raising an exception is modelled by `Except String`; a `try/except`
  handler that logs and re-raises is the identity on the error case.
* Remote calls (the provider SDK) are parameters of the embedded
  functions: each embedded method takes the provider response (or a
  response function) as an explicit argument.
-/

namespace QuantPipeline

/-! ## Frames: model of the tabular collaborator library -/

/-- A dataframe: column names, per-column numeric data (used only by the
tradable-symbol filter), and the number of rows. -/
structure Frame where
  cols : List String
  data : List (String × List Rat)
  nrows : Nat
deriving Repr, DecidableEq

/-- The empty dataframe, as produced by the zero-argument constructor. -/
def Frame.emptyFrame : Frame := ⟨[], [], 0⟩

/-- The `empty` property of a dataframe: true when there are no rows. -/
def Frame.isEmpty (f : Frame) : Bool := f.nrows == 0

/-- The attribute read `bars.empty` on line 34 of the connector.  The
frame reaching that line is the frame returned by `client.get_bars`,
which is the empty polars frame from client.py line 83 exactly when the
provider returned no rows, and the non-empty pandas frame from `.df`
otherwise.  Polars frames expose `is_empty()` but no `empty` attribute,
so on the no-rows path the read raises AttributeError; on a non-empty
(pandas) frame it yields the `empty` property, which is false there. -/
def Frame.emptyAttr (f : Frame) : Except String Bool :=
  if f.nrows == 0 then .error "AttributeError: empty"
  else .ok f.isEmpty

/-- `reset_index` moves the index levels into columns; in this model a
frame is always described by its post-reset column list, so the operation
is the identity. -/
def Frame.resetIndex (f : Frame) : Frame := f

/-- Dynamic attribute lookup on a frame.  The dataframe type exposes the
attribute `columns` (the list of column names); looking up any other name
raises an AttributeError. -/
def Frame.getAttr (f : Frame) (name : String) : Except String (List String) :=
  if name = "columns" then .ok f.cols
  else .error ("AttributeError: " ++ name)

/-- Column selection `bars[name]` on a frame: the values of the named
column, or a KeyError when the column is absent. -/
def Frame.colValues (f : Frame) (name : String) : Except String (List Rat) :=
  match f.data.find? (fun p => p.1 == name) with
  | some p => .ok p.2
  | none => .error ("KeyError: " ++ name)

/-! ## Connector.fetch_bars (alpaca_connector.py lines 28 to 56) -/

/-- The required column list of `fetch_bars` (line 40 of the connector). -/
def requiredColumns : List String :=
  ["symbol", "timestamp", "open", "high", "low", "close"]

/-- The column-validation loop of `fetch_bars` (lines 41 to 44): for each
required column, test membership in `bars.column` — the source writes
`column`, an attribute the dataframe type does not expose, so the lookup
raises.  Returns `ok true` when every column is present, `ok false` when a
column is found missing (the source then returns an empty frame). -/
def checkRequired (bars : Frame) : List String → Except String Bool
  | [] => .ok true
  | col :: rest => do
      let attr ← bars.getAttr "column"
      if col ∈ attr then checkRequired bars rest
      else .ok false

/-- Embedding of `AlpacaConnector.fetch_bars` after the provider call: the
argument `bars` is the frame returned by `client.get_bars`.  Line 34
reads `bars.empty` — on the no-rows path this frame is the empty polars
frame, which has no `empty` attribute, so the read itself raises (see
`Frame.emptyAttr`) and the return-empty branch is unreachable; otherwise
the index is reset, the required columns are validated (returning an
empty frame when one is missing), the required columns are selected, and
the derived columns `timeframe`, `source` and `fetched_at` are appended.
The volume column is never selected. -/
def fetchBars (bars : Frame) (timeframe : String) : Except String Frame := do
  let isEmpty ← bars.emptyAttr
  if isEmpty then
    return Frame.emptyFrame
  let bars := bars.resetIndex
  let allPresent ← checkRequired bars requiredColumns
  if !allPresent then
    return Frame.emptyFrame
  return { cols := requiredColumns ++ ["timeframe", "source", "fetched_at"],
           data := bars.data.filter (fun p => p.1 ∈ requiredColumns),
           nrows := bars.nrows }

/-! ## Dates and the backfill loop (alpaca_connector.py lines 58 to 106) -/

/-- The ordinal of the date 2024-01-`d` (ordinal 738886 is 2024-01-01);
a calendar date is represented by its proleptic Gregorian ordinal, an
integer. -/
def ordinalJan2024 (d : Nat) : Int := 738885 + d

/-- The window plan of `AlpacaConnector.backfill` (lines 74 to 97): while
`current_date ≤ end_date`, the window from `current_date` to
`batch_end = min (current_date + 7) end_date` is produced and the loop
advances to `batch_end + 1`. -/
def backfillWindows (current_date end_date : Int) : List (Int × Int) :=
  if h : current_date ≤ end_date then
    (current_date, min (current_date + 7) end_date)
      :: backfillWindows (min (current_date + 7) end_date + 1) end_date
  else
    []
termination_by (end_date + 1 - current_date).toNat
decreasing_by
  simp_wf
  rw [Int.min_def]
  split <;> linarith

/-- One run of the backfill loop (alpaca_connector.py lines 74 to 103),
with the per-window call to `fetch_bars` abstracted as a function from
windows to a frame or an error.  The result is the list of windows
actually fetched, in order, paired with the outcome: the collected
non-empty batch frames in window order, or the first error raised — the
handler on line 104 logs and re-raises it, aborting the loop, so the
windows after the failing one are never fetched and no partial result is
returned. -/
def backfillRun (fetch_bars : Int × Int → Except String Frame)
    (current_date end_date : Int) :
    List (Int × Int) × Except String (List Frame) :=
  if h : current_date ≤ end_date then
    match fetch_bars (current_date, min (current_date + 7) end_date) with
    | .error er => ([(current_date, min (current_date + 7) end_date)], .error er)
    | .ok batch_data =>
        let rest := backfillRun fetch_bars (min (current_date + 7) end_date + 1) end_date
        ((current_date, min (current_date + 7) end_date) :: rest.1,
         rest.2.map (fun l => if batch_data.isEmpty then l else batch_data :: l))
  else
    ([], .ok [])
termination_by (end_date + 1 - current_date).toNat
decreasing_by
  simp_wf
  rw [Int.min_def]
  split <;> linarith

/-! ## Connector.get_tradable_symbols (alpaca_connector.py lines 151 to 187) -/

/-- An asset record, as reshaped by `client.get_assets`
(client.py lines 122 to 138). -/
structure Asset where
  id : String
  symbol : String
  name : String
  exchange : String
  tradable : Bool
deriving Repr, DecidableEq

/-- Reading a local variable in the source language: a name that has not
been assigned a value at the point of use raises UnboundLocalError. -/
def localVar {α : Type} (v : Option α) (name : String) : Except String α :=
  match v with
  | some x => .ok x
  | none => .error ("UnboundLocalError: " ++ name)

/-- The `isalnum` test on a string: true when the string is non-empty and
every character is alphanumeric. -/
def pyIsalnum (s : String) : Bool :=
  !s.isEmpty && s.toList.all Char.isAlphanum

/-- The arithmetic mean of a column of values. -/
def listMean (l : List Rat) : Rat := l.sum / l.length

/-- The per-asset body of the `get_tradable_symbols` loop (lines 160 to
180): skip assets whose tradable flag is false and symbols that fail the
alphanumeric test; fetch a five-row bar window for the candidate; skip it
when the window is empty; include the symbol exactly when the mean close
is at least `min_price` and the mean volume is at least `min_volume`; any
error raised while checking the candidate is logged and the candidate
skipped. -/
def tradableLoopBody (get_bars : String → Except String Frame)
    (min_price min_volume : Rat) (acc : List String) (asset : Asset) :
    List String :=
  if !asset.tradable then acc
  else if !pyIsalnum asset.symbol then acc
  else
    match (do
      let bars ← get_bars asset.symbol
      if bars.isEmpty then
        return acc
      let close ← bars.colValues "close"
      let volume ← bars.colValues "volume"
      if listMean close ≥ min_price ∧ listMean volume ≥ min_volume then
        return acc ++ [asset.symbol]
      else
        return acc : Except String (List String)) with
    | .ok acc2 => acc2
    | .error _ => acc

/-- Embedding of `AlpacaConnector.get_tradable_symbols` (lines 151 to
187).  The asset list returned by `client.get_assets` is bound to the
local name `assets`; the loop header on line 159 then iterates over the
local name `asset`, which has no value at that point, so evaluating the
loop header raises UnboundLocalError; the outer handler logs and
re-raises it.  The fold of `tradableLoopBody` over the iterable is
therefore never entered. -/
def getTradableSymbols (get_assets : Except String (List Asset))
    (get_bars : String → Except String Frame)
    (min_price min_volume : Rat) : Except String (List String) := do
  let assets ← get_assets
  let iterable ← localVar (none : Option (List Asset)) "asset"
  let tradable_symbols :=
    iterable.foldl (tradableLoopBody get_bars min_price min_volume) []
  return tradable_symbols

/-! ## Client.get_latest_quotes (client.py lines 91 to 110) -/

/-- A raw quote object as returned by the provider SDK. -/
structure RawQuote where
  bp : Rat
  bs : Int
  ap : Rat
  as_ : Int
  t : Int
deriving Repr, DecidableEq

/-- The reshaped quote snapshot built for each symbol
(client.py lines 99 to 105). -/
structure QuoteSnapshot where
  bid_price : Rat
  bid_size : Int
  ask_price : Rat
  ask_size : Int
  timestamp : Int
deriving Repr, DecidableEq

/-- Reshaping of one raw quote into a snapshot. -/
def snapshotOf (q : RawQuote) : QuoteSnapshot :=
  ⟨q.bp, q.bs, q.ap, q.as_, q.t⟩

/-- Embedding of `AlpacaClient.get_latest_quotes`: one remote call per
requested symbol, building the mapping in request order; the first
per-symbol error escapes the loop and the handler logs and re-raises it,
so the partially built mapping is discarded. -/
def getLatestQuotes (get_latest_quote : String → Except String RawQuote) :
    List String → Except String (List (String × QuoteSnapshot))
  | [] => .ok []
  | s :: rest => do
      let quote ← get_latest_quote s
      let others ← getLatestQuotes get_latest_quote rest
      return (s, snapshotOf quote) :: others

/-! ## Concrete collaborators used by witnesses -/

/-- A per-window fetch that always fails, standing for a provider outage. -/
def alwaysFail : Int × Int → Except String Frame := fun _ => .error "ProviderError"

/-- A quote source that fails on the symbol FAIL and succeeds elsewhere. -/
def demoGetQuote : String → Except String RawQuote :=
  fun s => if s = "FAIL" then .error "ProviderError"
           else .ok ⟨101, 5, 102, 7, 1700000000⟩

/-! ## Supporting lemmas on the backfill loop -/

theorem backfillWindows_cons (c e : Int) (h : c ≤ e) :
    backfillWindows c e
      = (c, min (c + 7) e) :: backfillWindows (min (c + 7) e + 1) e := by
  rw [backfillWindows.eq_def]
  simp [h]

theorem backfillWindows_nil (c e : Int) (h : ¬ c ≤ e) :
    backfillWindows c e = [] := by
  rw [backfillWindows.eq_def]
  simp [h]

theorem backfillWindows_mem_bounds (n : Nat) :
    ∀ c e : Int, (e + 1 - c).toNat ≤ n →
      ∀ w ∈ backfillWindows c e, c ≤ w.1 ∧ w.1 ≤ w.2 ∧ w.2 ≤ e ∧ w.2 - w.1 ≤ 7 := by
  induction n with
  | zero =>
      intro c e hn w hw
      rw [backfillWindows_nil c e (by omega)] at hw
      exact absurd hw (List.not_mem_nil w)
  | succ n ih =>
      intro c e hn w hw
      by_cases h : c ≤ e
      · rw [backfillWindows_cons c e h] at hw
        rcases List.mem_cons.mp hw with rfl | hw
        · simp only []
          omega
        · have := ih (min (c + 7) e + 1) e (by omega) w hw
          omega
      · rw [backfillWindows_nil c e h] at hw
        exact absurd hw (List.not_mem_nil w)

theorem backfillWindows_chain (n : Nat) :
    ∀ c e : Int, (e + 1 - c).toNat ≤ n →
      List.Chain' (fun a b => b.1 = a.2 + 1) (backfillWindows c e) := by
  induction n with
  | zero =>
      intro c e hn
      rw [backfillWindows_nil c e (by omega)]
      exact List.chain'_nil
  | succ n ih =>
      intro c e hn
      by_cases h : c ≤ e
      · rw [backfillWindows_cons c e h]
        refine List.chain'_cons'.mpr ⟨?_, ih _ e (by omega)⟩
        intro b hb
        by_cases h2 : min (c + 7) e + 1 ≤ e
        · rw [backfillWindows_cons _ e h2] at hb
          simp only [List.head?_cons, Option.mem_some_iff] at hb
          subst hb
          rfl
        · rw [backfillWindows_nil _ e h2] at hb
          simp at hb
      · rw [backfillWindows_nil c e h]
        exact List.chain'_nil

theorem backfillWindows_chain_lt (n : Nat) :
    ∀ c e : Int, (e + 1 - c).toNat ≤ n →
      List.Chain' (fun a b => a.1 < b.1) (backfillWindows c e) := by
  induction n with
  | zero =>
      intro c e hn
      rw [backfillWindows_nil c e (by omega)]
      exact List.chain'_nil
  | succ n ih =>
      intro c e hn
      by_cases h : c ≤ e
      · rw [backfillWindows_cons c e h]
        refine List.chain'_cons'.mpr ⟨?_, ih _ e (by omega)⟩
        intro b hb
        by_cases h2 : min (c + 7) e + 1 ≤ e
        · rw [backfillWindows_cons _ e h2] at hb
          simp only [List.head?_cons, Option.mem_some_iff] at hb
          subst hb
          simp only []
          omega
        · rw [backfillWindows_nil _ e h2] at hb
          simp at hb
      · rw [backfillWindows_nil c e h]
        exact List.chain'_nil

theorem backfillWindows_getLast (n : Nat) :
    ∀ c e : Int, (e + 1 - c).toNat ≤ n → c ≤ e →
      ∃ a, (backfillWindows c e).getLast? = some (a, e) := by
  induction n with
  | zero =>
      intro c e hn h
      omega
  | succ n ih =>
      intro c e hn h
      rw [backfillWindows_cons c e h]
      by_cases h2 : min (c + 7) e + 1 ≤ e
      · obtain ⟨a, ha⟩ := ih _ e (by omega) h2
        refine ⟨a, ?_⟩
        obtain ⟨x, l, hxl⟩ := List.exists_cons_of_ne_nil
          (l := backfillWindows (min (c + 7) e + 1) e)
          (by rw [backfillWindows_cons _ e h2]; simp)
        rw [hxl, List.getLast?_cons_cons, ← hxl, ha]
      · rw [backfillWindows_nil _ e h2]
        refine ⟨c, ?_⟩
        have : min (c + 7) e = e := by omega
        rw [this]
        rfl

theorem backfillWindows_length (n : Nat) :
    ∀ c e : Int, (e + 1 - c).toNat ≤ n →
      (backfillWindows c e).length
        = if c ≤ e then (e - c).toNat / 8 + 1 else 0 := by
  induction n with
  | zero =>
      intro c e hn
      rw [backfillWindows_nil c e (by omega), if_neg (by omega)]
      rfl
  | succ n ih =>
      intro c e hn
      by_cases h : c ≤ e
      · rw [backfillWindows_cons c e h, if_pos h]
        simp only [List.length_cons]
        rw [ih _ e (by omega)]
        by_cases h2 : min (c + 7) e + 1 ≤ e
        · rw [if_pos h2]
          omega
        · rw [if_neg h2]
          omega
      · rw [backfillWindows_nil c e h, if_neg h]
        rfl

theorem backfillRun_nil (f : Int × Int → Except String Frame) (c e : Int)
    (h : ¬ c ≤ e) : backfillRun f c e = ([], .ok []) := by
  rw [backfillRun.eq_def]
  simp [h]

theorem backfillRun_cons_error (f : Int × Int → Except String Frame) (c e : Int)
    (h : c ≤ e) (er : String) (hf : f (c, min (c + 7) e) = .error er) :
    backfillRun f c e = ([(c, min (c + 7) e)], .error er) := by
  rw [backfillRun.eq_def]
  simp [h, hf]

theorem backfillRun_cons_ok (f : Int × Int → Except String Frame) (c e : Int)
    (h : c ≤ e) (b : Frame) (hf : f (c, min (c + 7) e) = .ok b) :
    backfillRun f c e
      = ((c, min (c + 7) e) :: (backfillRun f (min (c + 7) e + 1) e).1,
         (backfillRun f (min (c + 7) e + 1) e).2.map
           (fun l => if b.isEmpty then l else b :: l)) := by
  rw [backfillRun.eq_def]
  simp [h, hf]

theorem backfillRun_trace_prefix (n : Nat) :
    ∀ (f : Int × Int → Except String Frame) (c e : Int),
      (e + 1 - c).toNat ≤ n →
      ∃ t, backfillWindows c e = (backfillRun f c e).1 ++ t := by
  induction n with
  | zero =>
      intro f c e hn
      rw [backfillWindows_nil c e (by omega), backfillRun_nil f c e (by omega)]
      exact ⟨[], rfl⟩
  | succ n ih =>
      intro f c e hn
      by_cases h : c ≤ e
      · cases hf : f (c, min (c + 7) e) with
        | error er =>
            rw [backfillWindows_cons c e h, backfillRun_cons_error f c e h er hf]
            exact ⟨backfillWindows (min (c + 7) e + 1) e, rfl⟩
        | ok b =>
            obtain ⟨t, ht⟩ := ih f (min (c + 7) e + 1) e (by omega)
            rw [backfillWindows_cons c e h, backfillRun_cons_ok f c e h b hf]
            exact ⟨t, by simp [ht]⟩
      · rw [backfillWindows_nil c e h, backfillRun_nil f c e h]
        exact ⟨[], rfl⟩

theorem backfillRun_error_propagates (n : Nat) :
    ∀ (f : Int × Int → Except String Frame) (c e : Int),
      (e + 1 - c).toNat ≤ n →
      (∃ w ∈ backfillWindows c e, ∃ er, f w = .error er) →
      ∃ er, (backfillRun f c e).2 = .error er := by
  induction n with
  | zero =>
      intro f c e hn hex
      rw [backfillWindows_nil c e (by omega)] at hex
      obtain ⟨w, hw, _⟩ := hex
      exact absurd hw (List.not_mem_nil w)
  | succ n ih =>
      intro f c e hn hex
      by_cases h : c ≤ e
      · cases hf : f (c, min (c + 7) e) with
        | error er =>
            rw [backfillRun_cons_error f c e h er hf]
            exact ⟨er, rfl⟩
        | ok b =>
            rw [backfillWindows_cons c e h] at hex
            obtain ⟨w, hw, er, her⟩ := hex
            rcases List.mem_cons.mp hw with rfl | hw
            · rw [hf] at her
              exact absurd her (by simp)
            · obtain ⟨er2, her2⟩ :=
                ih f (min (c + 7) e + 1) e (by omega) ⟨w, hw, er, her⟩
              rw [backfillRun_cons_ok f c e h b hf]
              exact ⟨er2, by simp [her2, Except.map]⟩
      · rw [backfillWindows_nil c e h] at hex
        obtain ⟨w, hw, _⟩ := hex
        exact absurd hw (List.not_mem_nil w)

theorem backfillWindows_nodup (c e : Int) : (backfillWindows c e).Nodup := by
  have hch := backfillWindows_chain_lt (e + 1 - c).toNat c e le_rfl
  have htr : Transitive (fun a b : Int × Int => a.1 < b.1) :=
    fun a b cc hab hbc => lt_trans hab hbc
  have hpw : List.Pairwise (fun a b : Int × Int => a.1 < b.1)
      (backfillWindows c e) := by
    have : IsTrans (Int × Int) (fun a b : Int × Int => a.1 < b.1) := ⟨htr⟩
    exact List.chain'_iff_pairwise.mp hch
  exact hpw.imp (fun hab => by intro heq; rw [heq] at hab; exact lt_irrefl _ hab)

theorem errorBind {α β : Type} (e : String) (f : α → Except String β) :
    (Except.error e : Except String α) >>= f = .error e := rfl

theorem okBind {α β : Type} (a : α) (f : α → Except String β) :
    (Except.ok a : Except String α) >>= f = f a := rfl

/-! ## The claims -/

/-- Claim C1: for every start date at most the end date, the backfill
window plan is contiguous — each window starts one day after the batch
end of the previous window — every window satisfies window start ≤ batch
end and batch end − window start ≤ 7 days, and the batch end of the final
window equals the requested end date. -/
theorem backfill_windows_contiguous_bounded_exact (start_date end_date : Int)
    (h : start_date ≤ end_date) :
    List.Chain' (fun a b => b.1 = a.2 + 1) (backfillWindows start_date end_date) ∧
    (∀ w ∈ backfillWindows start_date end_date, w.1 ≤ w.2 ∧ w.2 - w.1 ≤ 7) ∧
    ∃ a, (backfillWindows start_date end_date).getLast? = some (a, end_date) := by
  refine ⟨backfillWindows_chain _ start_date end_date le_rfl, ?_,
    backfillWindows_getLast _ start_date end_date le_rfl h⟩
  intro w hw
  have := backfillWindows_mem_bounds _ start_date end_date le_rfl w hw
  exact ⟨this.2.1, this.2.2.2⟩

/-- Witness for claim C1, at start 0 and end 10. -/
theorem backfill_windows_contiguous_bounded_exact_witness :
    (0 : Int) ≤ 10 ∧
    (List.Chain' (fun a b => b.1 = a.2 + 1) (backfillWindows 0 10) ∧
     (∀ w ∈ backfillWindows 0 10, w.1 ≤ w.2 ∧ w.2 - w.1 ≤ 7) ∧
     ∃ a, (backfillWindows 0 10).getLast? = some (a, 10)) :=
  ⟨by norm_num, backfill_windows_contiguous_bounded_exact 0 10 (by norm_num)⟩

/-- Claim C2: backfilling from 2024-01-01 to 2024-01-10 produces exactly
two windows, 2024-01-01 through 2024-01-08 and 2024-01-09 through
2024-01-10. -/
theorem backfill_jan2024_two_windows :
    backfillWindows (ordinalJan2024 1) (ordinalJan2024 10)
      = [(ordinalJan2024 1, ordinalJan2024 8),
         (ordinalJan2024 9, ordinalJan2024 10)] := by
  simp only [ordinalJan2024]
  norm_num
  rw [backfillWindows_cons _ _ (by norm_num)]
  norm_num [Int.min_def]
  rw [backfillWindows_cons _ _ (by norm_num)]
  norm_num [Int.min_def]
  rw [backfillWindows_nil _ _ (by norm_num)]

/-- Claim C3 is refuted by the code on both of its halves.  On a frame
with rows but without the required column `open`, fetch_bars does not
return an empty frame: the membership test on line 42 reads
`bars.column`, an attribute the dataframe type does not expose, so the
call raises AttributeError.  And when the provider returns no rows,
client.get_bars hands back the empty polars frame (client.py line 83),
which has no `empty` attribute either, so the check on line 34 already
raises AttributeError instead of returning an empty table. -/
theorem fetchBars_missing_column_raises :
    fetchBars ⟨["symbol", "timestamp", "high", "low", "close"], [], 3⟩ "1Min"
        = .error "AttributeError: column" ∧
    fetchBars ⟨[], [], 0⟩ "1Min" = .error "AttributeError: empty" := by
  exact ⟨rfl, rfl⟩

/-- Claim C4 is refuted by the code: fetch_bars can never return a
non-empty result, because on every frame with rows — here one carrying
all the required columns and volume — the validation loop reads the
non-existent attribute `bars.column` and the call raises AttributeError
instead of returning the formatted frame. -/
theorem fetchBars_nonempty_success_impossible :
    fetchBars ⟨["symbol", "timestamp", "open", "high", "low", "close", "volume"],
        [], 5⟩ "1Min" = .error "AttributeError: column" := by
  exact rfl

/-- Claim C5 is refuted by the code: no candidate symbol is ever tested
against the price and volume thresholds, because the loop header on line
159 iterates over the unassigned local name `asset` and the whole call
raises UnboundLocalError — here on a tradable alphanumeric asset whose
five-row window passes both thresholds. -/
theorem getTradableSymbols_threshold_loop_unreachable :
    getTradableSymbols
        (.ok [⟨"a1", "AAPL", "Apple Inc", "NASDAQ", true⟩])
        (fun _ => .ok ⟨["close", "volume"],
          [("close", [10, 10, 10, 10, 10]),
           ("volume", [600000, 600000, 600000, 600000, 600000])], 5⟩)
        5 500000
      = .error "UnboundLocalError: asset" := by
  exact rfl

/-- Claim C6 is refuted by the code: on the example asset list with AAPL
and BRK.B, get_tradable_symbols does not return a list excluding BRK.B —
it raises UnboundLocalError from the loop header on line 159 before any
asset is examined. -/
theorem getTradableSymbols_example_assets_raise :
    getTradableSymbols
        (.ok [⟨"a1", "AAPL", "Apple Inc", "NASDAQ", true⟩,
              ⟨"a2", "BRK.B", "Berkshire Hathaway", "NYSE", true⟩])
        (fun _ => .ok ⟨["close", "volume"],
          [("close", [10, 10, 10, 10, 10]),
           ("volume", [600000, 600000, 600000, 600000, 600000])], 5⟩)
        5 500000
      = .error "UnboundLocalError: asset" := by
  exact rfl

/-- Claim C7 is refuted by the code: a per-symbol fetch failure never gets
the chance to be isolated, because the call raises UnboundLocalError from
the loop header on line 159 before any symbol is fetched — here with a
bar source that fails for MSFT and succeeds for AAPL, the whole call
errors rather than returning the passing symbols. -/
theorem getTradableSymbols_failure_not_isolated :
    getTradableSymbols
        (.ok [⟨"a3", "MSFT", "Microsoft", "NASDAQ", true⟩,
              ⟨"a1", "AAPL", "Apple Inc", "NASDAQ", true⟩])
        (fun s => if s = "MSFT" then .error "ProviderError"
                  else .ok ⟨["close", "volume"],
                    [("close", [10, 10, 10, 10, 10]),
                     ("volume", [600000, 600000, 600000, 600000, 600000])], 5⟩)
        5 500000
      = .error "UnboundLocalError: asset" := by
  exact rfl

/-- Claim C8: in get_latest_quotes, if the remote quote call fails for any
requested symbol then the whole call raises (no partial mapping is
returned); when every per-symbol call succeeds, the result maps each
requested symbol, in request order, to the reshaped snapshot of its raw
quote. -/
theorem getLatestQuotes_all_or_nothing
    (get_latest_quote : String → Except String RawQuote) (symbols : List String) :
    ((∃ s ∈ symbols, ∃ e, get_latest_quote s = .error e) →
        ∃ e, getLatestQuotes get_latest_quote symbols = .error e) ∧
    ((∀ s ∈ symbols, ∃ q, get_latest_quote s = .ok q) →
        ∃ m, getLatestQuotes get_latest_quote symbols = .ok m ∧
          m.map Prod.fst = symbols ∧
          ∀ p ∈ m, ∃ q, get_latest_quote p.1 = .ok q ∧ p.2 = snapshotOf q) := by
  induction symbols with
  | nil =>
      constructor
      · rintro ⟨s, hs, _⟩
        exact absurd hs (List.not_mem_nil s)
      · intro _
        exact ⟨[], rfl, rfl, by simp⟩
  | cons s rest ih =>
      constructor
      · rintro ⟨x, hx, e, he⟩
        rcases List.mem_cons.mp hx with rfl | hx
        · exact ⟨e, by simp [getLatestQuotes, he, errorBind]⟩
        · cases hq : get_latest_quote s with
          | error e2 =>
              exact ⟨e2, by simp [getLatestQuotes, hq, errorBind]⟩
          | ok q =>
              obtain ⟨e3, he3⟩ := ih.1 ⟨x, hx, e, he⟩
              exact ⟨e3, by simp [getLatestQuotes, hq, he3, errorBind, okBind]⟩
      · intro hall
        obtain ⟨q, hq⟩ := hall s (List.mem_cons_self s rest)
        obtain ⟨m, hm, hmap, hmem⟩ :=
          ih.2 (fun x hx => hall x (List.mem_cons_of_mem s hx))
        refine ⟨(s, snapshotOf q) :: m, ?_, ?_, ?_⟩
        · simp [getLatestQuotes, hq, hm, errorBind, okBind]
        · simp [hmap]
        · intro p hp
          rcases List.mem_cons.mp hp with rfl | hp
          · exact ⟨q, hq, rfl⟩
          · exact hmem p hp

/-- Witness for claim C8, at the quote source `demoGetQuote` and the
symbol list [AAPL, FAIL]. -/
theorem getLatestQuotes_all_or_nothing_witness :
    ((∃ s ∈ ["AAPL", "FAIL"], ∃ e, demoGetQuote s = .error e) →
        ∃ e, getLatestQuotes demoGetQuote ["AAPL", "FAIL"] = .error e) ∧
    ((∀ s ∈ ["AAPL", "FAIL"], ∃ q, demoGetQuote s = .ok q) →
        ∃ m, getLatestQuotes demoGetQuote ["AAPL", "FAIL"] = .ok m ∧
          m.map Prod.fst = ["AAPL", "FAIL"] ∧
          ∀ p ∈ m, ∃ q, demoGetQuote p.1 = .ok q ∧ p.2 = snapshotOf q) :=
  getLatestQuotes_all_or_nothing demoGetQuote ["AAPL", "FAIL"]

/-- Claim C9: if the per-window fetch fails on any window of the plan,
the backfill run raises — its outcome is an error, so no partial
concatenation of previously fetched batches is returned — the windows it
fetched form a duplicate-free prefix of the plan, so the failing window
is never retried and nothing past the failure is fetched. -/
theorem backfill_aborts_on_batch_failure
    (fetch_bars : Int × Int → Except String Frame) (start_date end_date : Int)
    (h : ∃ w ∈ backfillWindows start_date end_date, ∃ er, fetch_bars w = .error er) :
    (∃ er, (backfillRun fetch_bars start_date end_date).2 = .error er) ∧
    (backfillRun fetch_bars start_date end_date).1.Nodup ∧
    (∃ t, backfillWindows start_date end_date
        = (backfillRun fetch_bars start_date end_date).1 ++ t) := by
  obtain ⟨t, ht⟩ := backfillRun_trace_prefix (end_date + 1 - start_date).toNat
    fetch_bars start_date end_date le_rfl
  refine ⟨backfillRun_error_propagates _ fetch_bars start_date end_date le_rfl h,
    ?_, ⟨t, ht⟩⟩
  have hnd := backfillWindows_nodup start_date end_date
  rw [ht] at hnd
  exact hnd.of_append_left

/-- Witness for claim C9, at the failing fetch `alwaysFail` over the plan
from 0 to 10. -/
theorem backfill_aborts_on_batch_failure_witness :
    (∃ w ∈ backfillWindows 0 10, ∃ er, alwaysFail w = .error er) ∧
    ((∃ er, (backfillRun alwaysFail 0 10).2 = .error er) ∧
     (backfillRun alwaysFail 0 10).1.Nodup ∧
     (∃ t, backfillWindows 0 10 = (backfillRun alwaysFail 0 10).1 ++ t)) := by
  have hmin : min ((0 : Int) + 7) 10 = 7 := by norm_num [Int.min_def]
  have h : ∃ w ∈ backfillWindows 0 10, ∃ er, alwaysFail w = .error er := by
    refine ⟨(0, 7), ?_, "ProviderError", rfl⟩
    rw [backfillWindows_cons 0 10 (by norm_num), hmin]
    exact List.mem_cons_self _ _
  exact ⟨h, backfill_aborts_on_batch_failure alwaysFail 0 10 h⟩

/-- Claim C10: the backfill loop terminates on every pair of normalized
dates: it runs zero iterations when the start date is after the end date,
each iteration advances the current date strictly, and the number of
iterations is finite — exactly (end − start).toNat / 8 + 1 when start ≤
end. -/
theorem backfill_loop_terminates (start_date end_date : Int) :
    (¬ start_date ≤ end_date → backfillWindows start_date end_date = []) ∧
    List.Chain' (fun a b => a.1 < b.1) (backfillWindows start_date end_date) ∧
    (backfillWindows start_date end_date).length
      = if start_date ≤ end_date
        then (end_date - start_date).toNat / 8 + 1 else 0 :=
  ⟨backfillWindows_nil start_date end_date,
   backfillWindows_chain_lt _ start_date end_date le_rfl,
   backfillWindows_length _ start_date end_date le_rfl⟩

/-- Witness for claim C10, at start 11 and end 3 (an empty plan). -/
theorem backfill_loop_terminates_witness :
    (¬ (11 : Int) ≤ 3 → backfillWindows 11 3 = []) ∧
    List.Chain' (fun a b => a.1 < b.1) (backfillWindows 11 3) ∧
    (backfillWindows 11 3).length
      = if (11 : Int) ≤ 3 then ((3 : Int) - 11).toNat / 8 + 1 else 0 :=
  backfill_loop_terminates 11 3

end QuantPipeline
